import Mathlib

/-!
# Verification of the gonuxt-context-assistant fan-out weather aggregator

This file embeds the Go source of the repository (packages `tools` and
`assistant`, plus the HTTP-level caller in `internal/api`) into Lean and
proves properties of the embedded functions.

Modelling conventions:
* Go strings are Lean `String`s; all the data involved is ASCII, where
  Go's `strings.ToLower` agrees with character-wise lowercasing
  (`strToLower`).
* A Go `map[string]string` is an association list `List (String × String)`
  together with an insert operation (`mapInsert`) that overwrites the
  binding of an existing key, a lookup (`mapFind`) and a key projection
  (`mapKeys`).  Built from the empty map by inserts, its keys are
  pairwise distinct, exactly like a Go map.
* A `context.Context` cancellation token is observed by one unit of work
  at up to two program points: the fast-cancel check in `GetData` and the
  `select` at the top of `GetWeather`.  `TokenObs` records what the unit
  saw at each point.  A real token only transitions from unfired to
  fired, so a pre-cancelled token is `⟨true, true⟩` and a token that
  never fires during the unit is `⟨false, false⟩`.
* The goroutine fan-out of `GetMultiCityWeather` merges each unit's
  result into the shared map in an order chosen by the scheduler; the
  embedding takes that merge order as an explicit parameter `order`,
  constrained in the theorems to be a permutation of the unit indices.
* `http.StatusOK` is `200`, `http.StatusInternalServerError` is `500`.
* Errors returned by Go functions are `Option GoErr` (`none` = `nil`).
-/

namespace Gonuxt

/-- The only error value the embedded code ever produces: `ctx.Err()`,
reported when a cancellation token has fired. -/
inductive GoErr where
  | ctxErr : GoErr
deriving DecidableEq, Repr

/-- What one unit of work observed of its cancellation token: `atGetData`
is whether the token had fired at `GetData`'s fast-cancel check,
`atLookup` whether it had fired at the `select` inside `GetWeather`. -/
structure TokenObs where
  atGetData : Bool
  atLookup : Bool
deriving DecidableEq, Repr

/-- A token that never fires while the unit runs. -/
def noFire : TokenObs := ⟨false, false⟩

/-- A token that had already fired before the unit did anything. -/
def allFired : TokenObs := ⟨true, true⟩

/-- Embedding of Go `strings.ToLower`, character by character; on the
ASCII data involved this agrees with Unicode lowercasing. -/
def strToLower (s : String) : String :=
  ⟨s.data.map Char.toLower⟩

/-! ## Go map model -/

/-- Lookup in a Go map modelled as an association list: the value of the
first pair whose key matches. -/
def mapFind : List (String × String) → String → Option String
  | [], _ => none
  | p :: m, k => if p.1 = k then some p.2 else mapFind m k

/-- The keys of a Go map modelled as an association list. -/
def mapKeys (m : List (String × String)) : List String :=
  m.map Prod.fst

/-- Go map assignment `m[k] = v`: overwrite the binding of `k` if `k` is
already a key, otherwise add a new binding. -/
def mapInsert (m : List (String × String)) (k v : String) :
    List (String × String) :=
  if k ∈ mapKeys m then
    m.map (fun p => if p.1 = k then (k, v) else p)
  else
    m ++ [(k, v)]

/-! ## Embedding of `internal/tools/tools.go` -/

/-- The static weather table of `tools.GetWeather` (keys lowercase). -/
def weatherData : List (String × String) :=
  [("lisbon", "sunny with 28°C."),
   ("london", "cloudy with 18°C."),
   ("new york", "partly cloudy with 22°C."),
   ("paris", "a delightful 20°C."),
   ("tokyo", "rainy with 15°C.")]

/-- Embedding of `tools.GetWeather`: under a fired token the `select`
takes the `<-ctx.Done()` case and returns `("", false)`; otherwise the
city is looked up in `weatherData` after lowercasing. -/
def GetWeather (cancelled : Bool) (city : String) : String × Bool :=
  if cancelled then ("", false)
  else
    match mapFind weatherData (strToLower city) with
    | some report => ("The weather in " ++ city ++ " is currently " ++ report, true)
    | none => ("No weather information found for " ++ city ++ ".", false)

/-- Embedding of `tools.GetWeatherForCities`: a sequential loop that
stores, for each city in order, either the report (when found) or the
could-not-be-found placeholder; the returned error is always `nil`. -/
def GetWeatherForCities (cancelled : Bool) (cities : List String) :
    List (String × String) × Option GoErr :=
  (cities.foldl
    (fun reports city =>
      let wr := GetWeather cancelled city
      if wr.2 then mapInsert reports city wr.1
      else mapInsert reports city
        ("Weather data for " ++ city ++ " could not be found."))
    [],
   none)

/-- Embedding of Go `strings.Contains(s, sub)`. -/
def strContains (s sub : String) : Bool :=
  (List.range (s.data.length + 1)).any
    (fun i => sub.data.isPrefixOf (s.data.drop i))

/-- Embedding of `tools.ExtractCitiesFromQuery` (same body is duplicated
in the `assistant` package): the known cities whose lowercase form occurs
in the lowercased query, in table order. -/
def ExtractCitiesFromQuery (query : String) : List String :=
  ["Lisbon", "London", "New York", "Paris", "Berlin", "Madrid"].filter
    (fun city => strContains (strToLower query) (strToLower city))

/-- Modelled from the spec: `tools.GetData(ctx, key, lookup)` is invoked
by `ProcessQuery` and by every unit of work in `GetMultiCityWeather`, but
no definition with that signature exists in the source tree — only an
abandoned stringly-typed draft survives in a comment in `tools.go`.  Per
the spec, a unit of work first checks whether the token has already fired
before doing any work (fast-cancel) and otherwise invokes the lookup; a
lookup that reports not-found yields a caller-visible placeholder message
and is a successful outcome, not an error, while cancellation is reported
as the context error with an empty value — matching the abandoned draft
(`case <-ctx.Done(): return "", ctx.Err()`) and the `err != nil` check at
the call site in `GetMultiCityWeather`. -/
def GetData (tok : TokenObs) (key : String)
    (lookup : Bool → String → String × Bool) : String × Option GoErr :=
  if tok.atGetData then ("", some GoErr.ctxErr)
  else
    let r := lookup tok.atLookup key
    if r.2 then (r.1, none)
    else ("Weather data for " ++ key ++ " could not be found.", none)

/-! ## Embedding of `internal/app/assistant/assistant.go` -/

/-- The body of one goroutine spawned by `GetMultiCityWeather` for one
city: call `GetData` with `GetWeather` as the lookup, substitute the
could-not-be-found placeholder when it returns an error, and emit the
`(city, report)` pair sent on the results channel. -/
def unitResult (tok : TokenObs) (city : String) : String × String :=
  let r := GetData tok city GetWeather
  match r.2 with
  | some _ => (city, "Weather data for " ++ city ++ " could not be found.")
  | none => (city, r.1)

/-- Embedding of `Service.GetMultiCityWeather`: one unit of work per
entry of `cities` (unit `i` observes token state `obs i`); the collector
loop merges the units' results into the map in the scheduler-determined
order `order` (a permutation of the unit indices, see the theorems);
the status is unconditionally `http.StatusOK`. -/
def GetMultiCityWeather (obs : Nat → TokenObs) (cities : List String)
    (order : List Nat) : List (String × String) × Nat :=
  (order.foldl
    (fun reports i =>
      match cities.get? i with
      | some city =>
        let r := unitResult (obs i) city
        mapInsert reports r.1 r.2
      | none => reports)
    [],
   200)

/-- Embedding of `Service.GetWeatherForCitiesFromQuery`: extract the
known cities from the query, fetch their reports sequentially, and map a
non-`nil` error to `(nil, 500)` and success to the reports with `200`. -/
def GetWeatherForCitiesFromQuery (cancelled : Bool) (query : String) :
    Option (List (String × String)) × Nat :=
  let cities := ExtractCitiesFromQuery query
  let r := GetWeatherForCities cancelled cities
  match r.2 with
  | some _ => (none, 500)
  | none => (some r.1, 200)

/-- Embedding of the `assistant` package helper `contains`:
case-insensitive substring test. -/
def contains (s substr : String) : Bool :=
  strContains (strToLower s) (strToLower substr)

/-- Character-level worker for Go `strings.Title`: uppercase every
letter that is not preceded by a letter. -/
def titleAux : Bool → List Char → List Char
  | _, [] => []
  | prev, c :: cs => (if prev then c else c.toUpper) :: titleAux c.isAlpha cs

/-- Embedding of Go `strings.Title` for the ASCII city names involved. -/
def stringsTitle (s : String) : String :=
  ⟨titleAux false s.data⟩

/-- Embedding of the `assistant` package helper `extractCity`: the first
known city (from a lowercase table) occurring in the lowercased query,
title-cased; `""` when none matches. -/
def extractCity (query : String) : String :=
  let lowerQuery := strToLower query
  match ["lisbon", "london", "new york", "paris", "tokyo", "porto"].find?
      (fun city => strContains lowerQuery city) with
  | some city => stringsTitle city
  | none => ""

/-- Embedding of `Service.ProcessQuery`.  The time/date branch returns
the current wall-clock string, passed in as the parameter `now`; the
weather branch extracts a city and, when one is found, answers with the
first component of `GetData` (discarding the error with `_`); the status
is unconditionally `http.StatusOK`. -/
def ProcessQuery (now : String) (tok : TokenObs) (query : String) :
    String × Nat :=
  let answer :=
    if contains query "time" || contains query "date" then now
    else if contains query "weather" then
      let city := extractCity query
      if city ≠ "" then (GetData tok city GetWeather).1
      else "Please specify a city for weather information. E.g., \x27What\x27s the weather in London?\x27"
    else "Hello! I am a simple assistant. I can tell you the current time or the weather in a major city. Try asking me about \x27time\x27 or \x27weather in London\x27."
  (answer, 200)

/-! ## Lemmas about the Go map model -/

theorem mapKeys_nil : mapKeys [] = [] := rfl

theorem mapKeys_cons (p : String × String) (m : List (String × String)) :
    mapKeys (p :: m) = p.1 :: mapKeys m := rfl

theorem mapFind_map_update_ne (m : List (String × String)) (k v k' : String)
    (hne : k' ≠ k) :
    mapFind (m.map (fun p => if p.1 = k then (k, v) else p)) k' = mapFind m k' := by
  induction m with
  | nil => rfl
  | cons p m ih =>
    by_cases hp : p.1 = k
    · have h1 : ¬k = k' := fun h => hne h.symm
      have h2 : ¬p.1 = k' := fun h => hne (hp ▸ h).symm
      simp [mapFind, hp, h1, h2, ih]
    · simp [mapFind, hp, ih]

theorem mapFind_map_update_eq (m : List (String × String)) (k v : String)
    (hmem : k ∈ mapKeys m) :
    mapFind (m.map (fun p => if p.1 = k then (k, v) else p)) k = some v := by
  induction m with
  | nil => simp [mapKeys] at hmem
  | cons p m ih =>
    by_cases hp : p.1 = k
    · simp [List.map_cons, if_pos hp, mapFind]
    · rw [mapKeys_cons, List.mem_cons] at hmem
      rcases hmem with h | h
      · exact absurd h.symm hp
      · simp only [List.map_cons, if_neg hp, mapFind, if_neg hp, ih h]

theorem mapFind_eq_none_of_not_mem (m : List (String × String)) (k : String)
    (h : k ∉ mapKeys m) : mapFind m k = none := by
  induction m with
  | nil => rfl
  | cons p m ih =>
    rw [mapKeys_cons, List.mem_cons] at h
    push_neg at h
    simp only [mapFind, if_neg (fun hp : p.1 = k => h.1 hp.symm), ih h.2]

theorem mapFind_append (m₁ m₂ : List (String × String)) (k : String) :
    mapFind (m₁ ++ m₂) k =
      match mapFind m₁ k with
      | some v => some v
      | none => mapFind m₂ k := by
  induction m₁ with
  | nil => rfl
  | cons p m ih =>
    by_cases hp : p.1 = k
    · simp [mapFind, hp]
    · simp [mapFind, hp, ih]

theorem mapFind_mapInsert (m : List (String × String)) (k v k' : String) :
    mapFind (mapInsert m k v) k' = if k' = k then some v else mapFind m k' := by
  unfold mapInsert
  by_cases hk : k' = k
  · rw [hk, if_pos rfl]
    by_cases hmem : k ∈ mapKeys m
    · rw [if_pos hmem, mapFind_map_update_eq m k v hmem]
    · rw [if_neg hmem, mapFind_append, mapFind_eq_none_of_not_mem m k hmem]
      simp [mapFind]
  · rw [if_neg hk]
    by_cases hmem : k ∈ mapKeys m
    · rw [if_pos hmem, mapFind_map_update_ne m k v k' hk]
    · rw [if_neg hmem, mapFind_append]
      have h1 : ¬k = k' := fun h => hk h.symm
      cases hx : mapFind m k' <;> simp [mapFind, h1, hx]

theorem mapKeys_mapInsert (m : List (String × String)) (k v : String) :
    mapKeys (mapInsert m k v) =
      if k ∈ mapKeys m then mapKeys m else mapKeys m ++ [k] := by
  unfold mapInsert
  by_cases hmem : k ∈ mapKeys m
  · rw [if_pos hmem, if_pos hmem]
    unfold mapKeys
    rw [List.map_map]
    apply List.map_congr_left
    intro p _
    by_cases hp : p.1 = k <;> simp [hp]
  · rw [if_neg hmem, if_neg hmem]
    unfold mapKeys
    simp

theorem mem_mapKeys_mapInsert (m : List (String × String)) (k v k' : String) :
    k' ∈ mapKeys (mapInsert m k v) ↔ k' = k ∨ k' ∈ mapKeys m := by
  rw [mapKeys_mapInsert]
  by_cases hmem : k ∈ mapKeys m
  · rw [if_pos hmem]
    constructor
    · exact Or.inr
    · rintro (rfl | h)
      · exact hmem
      · exact h
  · rw [if_neg hmem]
    simp [List.mem_append, or_comm]

theorem nodup_mapKeys_mapInsert (m : List (String × String)) (k v : String)
    (h : (mapKeys m).Nodup) : (mapKeys (mapInsert m k v)).Nodup := by
  rw [mapKeys_mapInsert]
  by_cases hmem : k ∈ mapKeys m
  · rw [if_pos hmem]; exact h
  · rw [if_neg hmem]
    rw [List.nodup_append]
    exact ⟨h, List.nodup_singleton k, by
      intro a ha hb
      rw [List.mem_singleton] at hb
      exact hmem (hb ▸ ha)⟩

theorem mem_of_mem_mapInsert (m : List (String × String)) (k v : String)
    (p : String × String) (h : p ∈ mapInsert m k v) : p = (k, v) ∨ p ∈ m := by
  unfold mapInsert at h
  by_cases hmem : k ∈ mapKeys m
  · rw [if_pos hmem] at h
    obtain ⟨q, hq, hrepl⟩ := List.mem_map.1 h
    by_cases hqk : q.1 = k
    · rw [if_pos hqk] at hrepl
      exact Or.inl hrepl.symm
    · rw [if_neg hqk] at hrepl
      exact Or.inr (hrepl ▸ hq)
  · rw [if_neg hmem] at h
    rcases List.mem_append.1 h with h | h
    · exact Or.inr h
    · exact Or.inl (List.mem_singleton.1 h)

/-! ## Folding a list of key-value pairs into a map -/

/-- Merging a sequence of `(key, value)` results into a Go map, in
arrival order: the common shape of the collector loop of
`GetMultiCityWeather` and the sequential loop of `GetWeatherForCities`. -/
def mergeList (kvs : List (String × String)) (m₀ : List (String × String)) :
    List (String × String) :=
  kvs.foldl (fun m p => mapInsert m p.1 p.2) m₀

/-- The value of the last pair carrying key `k` in a result sequence:
the binding that survives in the map (last-writer-wins). -/
def lastVal (kvs : List (String × String)) (k : String) : Option String :=
  kvs.foldl (fun acc p => if p.1 = k then some p.2 else acc) none

theorem lastVal_aux (k : String) (kvs : List (String × String)) (a : Option String) :
    List.foldl (fun acc p => if p.1 = k then some p.2 else acc) a kvs =
      match lastVal kvs k with
      | some v => some v
      | none => a := by
  induction kvs generalizing a with
  | nil => rfl
  | cons p kvs ih =>
    have hcons : lastVal (p :: kvs) k =
        match lastVal kvs k with
        | some v => some v
        | none => if p.1 = k then some p.2 else none :=
      ih (if p.1 = k then some p.2 else none)
    show List.foldl _ (if p.1 = k then some p.2 else a) kvs = _
    rw [ih, hcons]
    cases hx : lastVal kvs k <;> by_cases hp : p.1 = k <;> simp [hp]

theorem lastVal_cons (p : String × String) (kvs : List (String × String)) (k : String) :
    lastVal (p :: kvs) k =
      match lastVal kvs k with
      | some v => some v
      | none => if p.1 = k then some p.2 else none :=
  lastVal_aux k kvs (if p.1 = k then some p.2 else none)

theorem lastVal_eq_none (kvs : List (String × String)) (k : String)
    (h : k ∉ kvs.map Prod.fst) : lastVal kvs k = none := by
  induction kvs with
  | nil => rfl
  | cons p kvs ih =>
    rw [List.map_cons, List.mem_cons] at h
    push_neg at h
    rw [lastVal_cons, ih h.2]
    have hp : ¬p.1 = k := fun hp => h.1 hp.symm
    simp [hp]

theorem lastVal_constFun (f : String → String) (kvs : List (String × String)) (k : String)
    (h : ∀ p ∈ kvs, p.2 = f p.1) :
    lastVal kvs k = if k ∈ kvs.map Prod.fst then some (f k) else none := by
  induction kvs with
  | nil => rfl
  | cons p kvs ih =>
    have hp2 := h p (List.mem_cons_self p kvs)
    rw [lastVal_cons, ih (fun q hq => h q (List.mem_cons_of_mem p hq))]
    by_cases hmem : k ∈ kvs.map Prod.fst
    · simp [hmem, List.map_cons, List.mem_cons]
    · by_cases hp : p.1 = k
      · simp [hmem, hp, hp2, List.map_cons, List.mem_cons]
      · have h1 : ¬k = p.1 := fun hh => hp hh.symm
        simp [hmem, hp, h1, List.map_cons, List.mem_cons]

theorem lastVal_nodup (kvs : List (String × String)) (k v : String)
    (hnd : (kvs.map Prod.fst).Nodup) (hmem : (k, v) ∈ kvs) :
    lastVal kvs k = some v := by
  induction kvs with
  | nil => cases hmem
  | cons p kvs ih =>
    rw [List.map_cons, List.nodup_cons] at hnd
    rw [lastVal_cons]
    rcases List.mem_cons.1 hmem with h | h
    · have hk : p.1 = k := by rw [← h]
      have : k ∉ kvs.map Prod.fst := hk ▸ hnd.1
      rw [lastVal_eq_none kvs k this]
      simp [hk, ← h]
    · rw [ih hnd.2 h]

theorem mergeList_find (kvs m₀ : List (String × String)) (k : String) :
    mapFind (mergeList kvs m₀) k =
      match lastVal kvs k with
      | some v => some v
      | none => mapFind m₀ k := by
  induction kvs generalizing m₀ with
  | nil => rfl
  | cons p kvs ih =>
    show mapFind (mergeList kvs (mapInsert m₀ p.1 p.2)) k = _
    rw [ih, lastVal_cons, mapFind_mapInsert]
    cases hx : lastVal kvs k
    · by_cases hp : p.1 = k
      · simp [hp]
      · have h1 : ¬k = p.1 := fun h => hp h.symm
        simp [hp, h1]
    · simp

theorem mem_mapKeys_mergeList (kvs m₀ : List (String × String)) (k : String) :
    k ∈ mapKeys (mergeList kvs m₀) ↔ k ∈ kvs.map Prod.fst ∨ k ∈ mapKeys m₀ := by
  induction kvs generalizing m₀ with
  | nil => simp [mergeList]
  | cons p kvs ih =>
    show k ∈ mapKeys (mergeList kvs (mapInsert m₀ p.1 p.2)) ↔ _
    rw [ih, mem_mapKeys_mapInsert]
    simp [List.mem_cons, or_comm, or_assoc, or_left_comm, eq_comm]

theorem nodup_mapKeys_mergeList (kvs m₀ : List (String × String))
    (h : (mapKeys m₀).Nodup) : (mapKeys (mergeList kvs m₀)).Nodup := by
  induction kvs generalizing m₀ with
  | nil => exact h
  | cons p kvs ih => exact ih _ (nodup_mapKeys_mapInsert m₀ p.1 p.2 h)

theorem mergeList_all (P : String × String → Prop) (kvs m₀ : List (String × String))
    (h₀ : ∀ p ∈ m₀, P p) (h : ∀ p ∈ kvs, P p) :
    ∀ p ∈ mergeList kvs m₀, P p := by
  induction kvs generalizing m₀ with
  | nil => exact h₀
  | cons q kvs ih =>
    intro p hp
    refine ih _ ?_ (fun r hr => h r (List.mem_cons_of_mem q hr)) p hp
    intro r hr
    rcases mem_of_mem_mapInsert m₀ q.1 q.2 r hr with hr | hr
    · exact hr ▸ h q (List.mem_cons_self q kvs)
    · exact h₀ r hr

/-! ## Bridges between the embedded operations and `mergeList` -/

/-- The value the sequential loop of `GetWeatherForCities` stores for one
city: the report if found, the could-not-be-found placeholder otherwise. -/
def seqVal (cancelled : Bool) (city : String) : String :=
  let wr := GetWeather cancelled city
  if wr.2 then wr.1 else "Weather data for " ++ city ++ " could not be found."

theorem gwfc_eq_mergeList (cancelled : Bool) (cities : List String) :
    (GetWeatherForCities cancelled cities).1 =
      mergeList (cities.map (fun c => (c, seqVal cancelled c))) [] := by
  show cities.foldl _ [] = _
  unfold mergeList
  rw [List.foldl_map]
  have hstep : (fun (reports : List (String × String)) city =>
      let wr := GetWeather cancelled city
      if wr.2 then mapInsert reports city wr.1
      else mapInsert reports city
        ("Weather data for " ++ city ++ " could not be found.")) =
      (fun reports city => mapInsert reports city (seqVal cancelled city)) := by
    funext reports city
    show (if (GetWeather cancelled city).2 then _ else _) = _
    by_cases h : (GetWeather cancelled city).2 <;> simp [h, seqVal]
  rw [hstep]

/-- The sequence of `(city, report)` pairs produced by the units of
`GetMultiCityWeather`, in merge order. -/
def kvList (obs : Nat → TokenObs) (cities : List String) (order : List Nat) :
    List (String × String) :=
  order.filterMap (fun i => (cities.get? i).map (fun c => unitResult (obs i) c))

theorem gmw_eq_mergeList (obs : Nat → TokenObs) (cities : List String)
    (order : List Nat) :
    (GetMultiCityWeather obs cities order).1 =
      mergeList (kvList obs cities order) [] := by
  suffices h : ∀ m₀ : List (String × String),
      order.foldl (fun reports i =>
        match cities.get? i with
        | some city =>
          let r := unitResult (obs i) city
          mapInsert reports r.1 r.2
        | none => reports) m₀ = mergeList (kvList obs cities order) m₀ from h []
  induction order with
  | nil => intro m₀; rfl
  | cons i order ih =>
    intro m₀
    show List.foldl _ _ order = _
    unfold kvList
    rw [List.filterMap_cons]
    cases hg : cities.get? i with
    | none =>
      simp only [hg, Option.map_none']
      exact ih m₀
    | some c =>
      simp only [hg, Option.map_some']
      exact ih (mapInsert m₀ (unitResult (obs i) c).1 (unitResult (obs i) c).2)

theorem unitResult_fst (tok : TokenObs) (city : String) :
    (unitResult tok city).1 = city := by
  unfold unitResult
  cases h : (GetData tok city GetWeather).2 <;> simp [h]

theorem kvList_cons (obs : Nat → TokenObs) (cities : List String)
    (i : Nat) (order : List Nat) :
    kvList obs cities (i :: order) =
      match cities.get? i with
      | some c => unitResult (obs i) c :: kvList obs cities order
      | none => kvList obs cities order := by
  unfold kvList
  rw [List.filterMap_cons]
  cases h : cities.get? i <;> simp [h]

theorem kvList_map_fst (obs : Nat → TokenObs) (cities : List String)
    (order : List Nat) :
    (kvList obs cities order).map Prod.fst =
      order.filterMap (fun i => cities.get? i) := by
  induction order with
  | nil => rfl
  | cons i order ih =>
    rw [kvList_cons, List.filterMap_cons]
    cases h : cities.get? i <;> simp [h, ih, unitResult_fst]

theorem mem_filterMap_get_iff (cities : List String) (order : List Nat)
    (hperm : order.Perm (List.range cities.length)) (k : String) :
    k ∈ order.filterMap (fun i => cities.get? i) ↔ k ∈ cities := by
  rw [List.mem_filterMap]
  constructor
  · rintro ⟨i, _, hget⟩
    exact List.get?_mem hget
  · intro hk
    obtain ⟨⟨n, hn⟩, rfl⟩ := List.mem_iff_get.1 hk
    exact ⟨n, hperm.mem_iff.2 (List.mem_range.2 hn), List.get?_eq_get hn⟩

theorem gmw_mem_keys (obs : Nat → TokenObs) (cities : List String)
    (order : List Nat) (hperm : order.Perm (List.range cities.length))
    (k : String) :
    k ∈ mapKeys (GetMultiCityWeather obs cities order).1 ↔ k ∈ cities := by
  rw [gmw_eq_mergeList, mem_mapKeys_mergeList, kvList_map_fst,
    mem_filterMap_get_iff cities order hperm]
  simp [mapKeys]

theorem gmw_keys_nodup (obs : Nat → TokenObs) (cities : List String)
    (order : List Nat) :
    (mapKeys (GetMultiCityWeather obs cities order).1).Nodup := by
  rw [gmw_eq_mergeList]
  exact nodup_mapKeys_mergeList _ [] List.nodup_nil

theorem gmw_status (obs : Nat → TokenObs) (cities : List String)
    (order : List Nat) : (GetMultiCityWeather obs cities order).2 = 200 := rfl

theorem gmw_find_const (c₀ : TokenObs) (cities : List String) (order : List Nat)
    (hperm : order.Perm (List.range cities.length)) (k : String) :
    mapFind (GetMultiCityWeather (fun _ => c₀) cities order).1 k =
      if k ∈ cities then some ((unitResult c₀ k).2) else none := by
  rw [gmw_eq_mergeList, mergeList_find]
  have hconst : ∀ p ∈ kvList (fun _ => c₀) cities order,
      p.2 = (unitResult c₀ p.1).2 := by
    intro p hp
    obtain ⟨i, _, hmap⟩ := List.mem_filterMap.1 hp
    cases hg : cities.get? i with
    | none => rw [hg] at hmap; cases hmap
    | some c =>
      rw [hg, Option.map_some', Option.some_inj] at hmap
      rw [← hmap, unitResult_fst]
  rw [lastVal_constFun (fun key => (unitResult c₀ key).2) _ k hconst, kvList_map_fst]
  by_cases hmem : k ∈ cities
  · rw [if_pos ((mem_filterMap_get_iff cities order hperm k).2 hmem), if_pos hmem]
  · rw [if_neg (fun h => hmem ((mem_filterMap_get_iff cities order hperm k).1 h)),
      if_neg hmem]
    rfl

theorem nodup_filterMap_get (cities : List String) (order : List Nat)
    (hndc : cities.Nodup) (hndo : order.Nodup) :
    (order.filterMap (fun i => cities.get? i)).Nodup := by
  induction order with
  | nil => exact List.nodup_nil
  | cons i order ih =>
    rw [List.nodup_cons] at hndo
    rw [List.filterMap_cons]
    cases hg : cities.get? i with
    | none => exact ih hndo.2
    | some c =>
      refine List.nodup_cons.2 ⟨?_, ih hndo.2⟩
      intro hc
      obtain ⟨j, hj, hgj⟩ := List.mem_filterMap.1 hc
      obtain ⟨hi', hgi⟩ := List.get?_eq_some.1 hg
      obtain ⟨hj', hgj'⟩ := List.get?_eq_some.1 hgj
      have : (⟨i, hi'⟩ : Fin cities.length) = ⟨j, hj'⟩ :=
        (List.Nodup.get_inj_iff hndc).1 (hgi.trans hgj'.symm)
      have hij : i = j := congrArg Fin.val this
      exact hndo.1 (hij ▸ hj)

theorem gmw_find_nodup (obs : Nat → TokenObs) (cities : List String)
    (order : List Nat) (hndc : cities.Nodup)
    (hperm : order.Perm (List.range cities.length))
    (i : Nat) (hi : i < cities.length) :
    mapFind (GetMultiCityWeather obs cities order).1 (cities.get ⟨i, hi⟩) =
      some ((unitResult (obs i) (cities.get ⟨i, hi⟩)).2) := by
  rw [gmw_eq_mergeList, mergeList_find]
  have hndo : order.Nodup := hperm.nodup_iff.2 (List.nodup_range _)
  have hnd : ((kvList obs cities order).map Prod.fst).Nodup := by
    rw [kvList_map_fst]
    exact nodup_filterMap_get cities order hndc hndo
  have hmem : (cities.get ⟨i, hi⟩,
      (unitResult (obs i) (cities.get ⟨i, hi⟩)).2) ∈ kvList obs cities order := by
    apply List.mem_filterMap.2
    refine ⟨i, hperm.mem_iff.2 (List.mem_range.2 hi), ?_⟩
    rw [List.get?_eq_get hi, Option.map_some', Option.some_inj]
    exact Prod.ext (unitResult_fst _ _) rfl
  rw [lastVal_nodup _ _ _ hnd hmem]

theorem gwfc_find (cancelled : Bool) (cities : List String) (k : String) :
    mapFind (GetWeatherForCities cancelled cities).1 k =
      if k ∈ cities then some (seqVal cancelled k) else none := by
  rw [gwfc_eq_mergeList, mergeList_find]
  have hconst : ∀ p ∈ cities.map (fun c => (c, seqVal cancelled c)),
      p.2 = seqVal cancelled p.1 := by
    intro p hp
    obtain ⟨c, _, rfl⟩ := List.mem_map.1 hp
    rfl
  rw [lastVal_constFun (fun key => seqVal cancelled key) _ k hconst]
  have hkeys : ∀ l : List String,
      (l.map (fun c => (c, seqVal cancelled c))).map Prod.fst = l := by
    intro l
    induction l with
    | nil => rfl
    | cons c l ih => simp [ih]
  rw [hkeys cities]
  by_cases hmem : k ∈ cities <;> simp [hmem, mapFind]

theorem gwfc_mem_keys (cancelled : Bool) (cities : List String) (k : String) :
    k ∈ mapKeys (GetWeatherForCities cancelled cities).1 ↔ k ∈ cities := by
  rw [gwfc_eq_mergeList, mem_mapKeys_mergeList]
  have hkeys : ∀ l : List String,
      (l.map (fun c => (c, seqVal cancelled c))).map Prod.fst = l := by
    intro l
    induction l with
    | nil => rfl
    | cons c l ih => simp [ih]
  rw [hkeys cities]
  simp [mapKeys]

theorem gwfc_keys_nodup (cancelled : Bool) (cities : List String) :
    (mapKeys (GetWeatherForCities cancelled cities).1).Nodup := by
  rw [gwfc_eq_mergeList]
  exact nodup_mapKeys_mergeList _ [] List.nodup_nil

/-! ## Per-unit computations -/

theorem unitResult_placeholder (tok : TokenObs) (city : String)
    (h : tok.atGetData = true ∨ tok.atLookup = true) :
    (unitResult tok city).2 =
      "Weather data for " ++ city ++ " could not be found." := by
  obtain ⟨ag, al⟩ := tok
  cases ag
  · cases al
    · simp at h
    · rfl
  · rfl

theorem unitResult_ok (city : String) (h : (GetWeather false city).2 = true) :
    (unitResult noFire city).2 = (GetWeather false city).1 := by
  unfold unitResult GetData noFire
  simp only [Bool.false_eq_true, if_false, h, if_true]

theorem getData_skips_lookup (tok : TokenObs) (key : String)
    (h : tok.atGetData = true)
    (lookup lookup' : Bool → String → String × Bool) :
    GetData tok key lookup = GetData tok key lookup' := by
  unfold GetData
  rw [h]
  rfl

/-! ## Claims -/

/-- C1: for every non-empty key list under a token that never fires and a
lookup that always succeeds, both batch operations — the concurrent
`GetMultiCityWeather` (under any merge order the scheduler may produce)
and the sequential `GetWeatherForCities` — return a ResultMap whose
domain is exactly the set of distinct input keys: the result's key list
has no duplicates (each distinct key has exactly one entry) and a key is
present iff it occurs in the input (no other entry exists). -/
theorem batch_domain_exactly_distinct_keys
    (cities : List String) (hne : cities ≠ [])
    (hok : ∀ c ∈ cities, (GetWeather false c).2 = true)
    (order : List Nat) (hperm : order.Perm (List.range cities.length)) :
    (mapKeys (GetMultiCityWeather (fun _ => noFire) cities order).1).Nodup ∧
    (∀ k, k ∈ mapKeys (GetMultiCityWeather (fun _ => noFire) cities order).1 ↔
      k ∈ cities) ∧
    (mapKeys (GetWeatherForCities false cities).1).Nodup ∧
    (∀ k, k ∈ mapKeys (GetWeatherForCities false cities).1 ↔ k ∈ cities) :=
  ⟨gmw_keys_nodup _ cities order,
   fun k => gmw_mem_keys _ cities order hperm k,
   gwfc_keys_nodup false cities,
   fun k => gwfc_mem_keys false cities k⟩

/-- C1 witness: the concrete batch `["Lisbon", "London"]` (both found by
the lookup) under merge order `[1, 0]`. -/
theorem batch_domain_exactly_distinct_keys_witness :
    (["Lisbon", "London"] ≠ ([] : List String)) ∧
    (∀ c ∈ ["Lisbon", "London"], (GetWeather false c).2 = true) ∧
    (([1, 0] : List Nat).Perm (List.range 2)) ∧
    ((mapKeys (GetMultiCityWeather (fun _ => noFire) ["Lisbon", "London"] [1, 0]).1).Nodup ∧
     (∀ k, k ∈ mapKeys (GetMultiCityWeather (fun _ => noFire) ["Lisbon", "London"] [1, 0]).1 ↔
       k ∈ ["Lisbon", "London"]) ∧
     (mapKeys (GetWeatherForCities false ["Lisbon", "London"]).1).Nodup ∧
     (∀ k, k ∈ mapKeys (GetWeatherForCities false ["Lisbon", "London"]).1 ↔
       k ∈ ["Lisbon", "London"])) :=
  ⟨by decide, by decide, by decide,
   batch_domain_exactly_distinct_keys ["Lisbon", "London"] (by decide) (by decide)
     [1, 0] (by decide)⟩

/-- C2 counterexample: the claim says that on cancellation the batch
returns "the subset of the ResultMap populated so far", a partial map in
which a unit that skipped its lookup contributes nothing.  With one key
whose unit observed the token already fired (so its lookup never ran),
that subset would be empty, but the code returns a map that still has an
entry for the key — the could-not-be-found placeholder. -/
theorem cancellation_subset_counterexample :
    (GetMultiCityWeather (fun _ => allFired) ["Lisbon"] [0]).1 =
      [("Lisbon", "Weather data for Lisbon could not be found.")] ∧
    (GetMultiCityWeather (fun _ => allFired) ["Lisbon"] [0]).1 ≠ [] := by
  decide

/-- C2 (amended): when the token fires before all units complete, the
batch still returns status 200 (cancellation is not surfaced as a
failure) and a map with exactly the distinct input keys: every unit
contributes the entry of its own key (under distinct keys), a unit that
observed the fired token at either observation point contributes the
could-not-be-found placeholder rather than being omitted, and a unit
that observed the fired token before starting never invokes the lookup
(the `GetData` result is independent of the lookup function). -/
theorem cancellation_placeholder_policy
    (obs : Nat → TokenObs) (cities : List String) (hnd : cities.Nodup)
    (order : List Nat) (hperm : order.Perm (List.range cities.length)) :
    (GetMultiCityWeather obs cities order).2 = 200 ∧
    (∀ k, k ∈ mapKeys (GetMultiCityWeather obs cities order).1 ↔ k ∈ cities) ∧
    (∀ i (hi : i < cities.length),
       mapFind (GetMultiCityWeather obs cities order).1 (cities.get ⟨i, hi⟩) =
         some ((unitResult (obs i) (cities.get ⟨i, hi⟩)).2)) ∧
    (∀ tok city, tok.atGetData = true ∨ tok.atLookup = true →
       (unitResult tok city).2 =
         "Weather data for " ++ city ++ " could not be found.") ∧
    (∀ (tok : TokenObs) key lookup lookup', tok.atGetData = true →
       GetData tok key lookup = GetData tok key lookup') :=
  ⟨rfl, fun k => gmw_mem_keys obs cities order hperm k,
   fun i hi => gmw_find_nodup obs cities order hnd hperm i hi,
   fun tok city h => unitResult_placeholder tok city h,
   fun tok key lookup lookup' h => getData_skips_lookup tok key h lookup lookup'⟩

/-- C2 witness: batch `["Lisbon", "London"]` where unit 0 ran before the
token fired and unit 1 observed it fired, under merge order `[0, 1]`. -/
theorem cancellation_placeholder_policy_witness :
    ((["Lisbon", "London"] : List String).Nodup) ∧
    (([0, 1] : List Nat).Perm (List.range 2)) ∧
    ((GetMultiCityWeather (fun i => if i = 0 then noFire else allFired)
        ["Lisbon", "London"] [0, 1]).2 = 200 ∧
     (∀ k, k ∈ mapKeys (GetMultiCityWeather (fun i => if i = 0 then noFire else allFired)
        ["Lisbon", "London"] [0, 1]).1 ↔ k ∈ ["Lisbon", "London"]) ∧
     (∀ i (hi : i < (["Lisbon", "London"] : List String).length),
        mapFind (GetMultiCityWeather (fun i => if i = 0 then noFire else allFired)
            ["Lisbon", "London"] [0, 1]).1
            ((["Lisbon", "London"] : List String).get ⟨i, hi⟩) =
          some ((unitResult ((fun i => if i = 0 then noFire else allFired) i)
            ((["Lisbon", "London"] : List String).get ⟨i, hi⟩)).2)) ∧
     (∀ tok city, tok.atGetData = true ∨ tok.atLookup = true →
        (unitResult tok city).2 =
          "Weather data for " ++ city ++ " could not be found.") ∧
     (∀ (tok : TokenObs) key lookup lookup', tok.atGetData = true →
        GetData tok key lookup = GetData tok key lookup')) :=
  ⟨by decide, by decide,
   cancellation_placeholder_policy (fun i => if i = 0 then noFire else allFired)
     ["Lisbon", "London"] (by decide) [0, 1] (by decide)⟩

/-- C3: when the token is already fired before the batch is invoked,
every unit observes it before doing any lookup work (`GetData`'s result
does not depend on the lookup at all), `GetWeather` under a cancelled
context returns the empty string with `found = false`, and the returned
map is fully populated with skipped placeholders — exactly one
could-not-be-found entry per distinct key — with status 200. -/
theorem precancelled_fast_cancel
    (cities : List String) (order : List Nat)
    (hperm : order.Perm (List.range cities.length)) :
    (∀ key lookup lookup', GetData allFired key lookup = GetData allFired key lookup') ∧
    (∀ city, GetWeather true city = ("", false)) ∧
    (∀ k, mapFind (GetMultiCityWeather (fun _ => allFired) cities order).1 k =
       if k ∈ cities then
         some ("Weather data for " ++ k ++ " could not be found.")
       else none) ∧
    (mapKeys (GetMultiCityWeather (fun _ => allFired) cities order).1).Nodup ∧
    (GetMultiCityWeather (fun _ => allFired) cities order).2 = 200 := by
  refine ⟨fun key lookup lookup' => getData_skips_lookup allFired key rfl lookup lookup',
    fun city => rfl, ?_, gmw_keys_nodup _ _ _, rfl⟩
  intro k
  rw [gmw_find_const allFired cities order hperm k]
  by_cases hmem : k ∈ cities <;>
    simp [hmem, unitResult_placeholder allFired k (Or.inl rfl)]

/-- C3 witness: pre-cancelled batch `["Lisbon"]` with merge order `[0]`. -/
theorem precancelled_fast_cancel_witness :
    (([0] : List Nat).Perm (List.range 1)) ∧
    ((∀ key lookup lookup', GetData allFired key lookup = GetData allFired key lookup') ∧
     (∀ city, GetWeather true city = ("", false)) ∧
     (∀ k, mapFind (GetMultiCityWeather (fun _ => allFired) ["Lisbon"] [0]).1 k =
        if k ∈ ["Lisbon"] then
          some ("Weather data for " ++ k ++ " could not be found.")
        else none) ∧
     (mapKeys (GetMultiCityWeather (fun _ => allFired) ["Lisbon"] [0]).1).Nodup ∧
     (GetMultiCityWeather (fun _ => allFired) ["Lisbon"] [0]).2 = 200) :=
  ⟨by decide, precancelled_fast_cancel ["Lisbon"] [0] (by decide)⟩

/-- C4: when exactly one unit's `GetData` reports an error (in this code
the only error it can report is the fired-token context error, which is
distinct from not-found) and every other unit runs uncancelled with a
successful lookup, the batch does not abort: it returns status 200 and a
map with one entry per key — the N-1 genuine reports plus the
could-not-be-found placeholder substituted for the failed key. -/
theorem single_unit_failure_isolated
    (obs : Nat → TokenObs) (cities : List String) (hnd : cities.Nodup)
    (order : List Nat) (hperm : order.Perm (List.range cities.length))
    (j : Nat) (hj : j < cities.length)
    (hfail : (obs j).atGetData = true)
    (hrest : ∀ i (hi : i < cities.length), i ≠ j →
      obs i = noFire ∧ (GetWeather false (cities.get ⟨i, hi⟩)).2 = true) :
    (GetMultiCityWeather obs cities order).2 = 200 ∧
    mapFind (GetMultiCityWeather obs cities order).1 (cities.get ⟨j, hj⟩) =
      some ("Weather data for " ++ cities.get ⟨j, hj⟩ ++ " could not be found.") ∧
    (∀ i (hi : i < cities.length), i ≠ j →
       mapFind (GetMultiCityWeather obs cities order).1 (cities.get ⟨i, hi⟩) =
         some ((GetWeather false (cities.get ⟨i, hi⟩)).1)) ∧
    (mapKeys (GetMultiCityWeather obs cities order).1).Nodup ∧
    (mapKeys (GetMultiCityWeather obs cities order).1).length = cities.length := by
  refine ⟨rfl, ?_, ?_, gmw_keys_nodup _ _ _, ?_⟩
  · rw [gmw_find_nodup obs cities order hnd hperm j hj,
      unitResult_placeholder (obs j) _ (Or.inl hfail)]
  · intro i hi hne
    obtain ⟨ho, hw⟩ := hrest i hi hne
    rw [gmw_find_nodup obs cities order hnd hperm i hi, ho, unitResult_ok _ hw]
  · have h1 := gmw_keys_nodup obs cities order
    have h2 := fun k => gmw_mem_keys obs cities order hperm k
    have hsub1 : mapKeys (GetMultiCityWeather obs cities order).1 ⊆ cities :=
      fun k hk => (h2 k).1 hk
    have hsub2 : cities ⊆ mapKeys (GetMultiCityWeather obs cities order).1 :=
      fun k hk => (h2 k).2 hk
    exact Nat.le_antisymm (h1.subperm hsub1).length_le (hnd.subperm hsub2).length_le

/-- C4 witness: batch `["Lisbon", "London"]` where unit 1 fails with the
context error and unit 0 succeeds, under merge order `[0, 1]`. -/
theorem single_unit_failure_isolated_witness :
    ((["Lisbon", "London"] : List String).Nodup) ∧
    (([0, 1] : List Nat).Perm (List.range 2)) ∧
    (((fun i => if i = 1 then allFired else noFire) 1).atGetData = true) ∧
    (∀ i (hi : i < (["Lisbon", "London"] : List String).length), i ≠ 1 →
       (fun i => if i = 1 then allFired else noFire) i = noFire ∧
       (GetWeather false ((["Lisbon", "London"] : List String).get ⟨i, hi⟩)).2 = true) ∧
    ((GetMultiCityWeather (fun i => if i = 1 then allFired else noFire)
        ["Lisbon", "London"] [0, 1]).2 = 200 ∧
     mapFind (GetMultiCityWeather (fun i => if i = 1 then allFired else noFire)
        ["Lisbon", "London"] [0, 1]).1
        ((["Lisbon", "London"] : List String).get ⟨1, by decide⟩) =
       some ("Weather data for " ++
         (["Lisbon", "London"] : List String).get ⟨1, by decide⟩ ++
         " could not be found.") ∧
     (∀ i (hi : i < (["Lisbon", "London"] : List String).length), i ≠ 1 →
        mapFind (GetMultiCityWeather (fun i => if i = 1 then allFired else noFire)
            ["Lisbon", "London"] [0, 1]).1
            ((["Lisbon", "London"] : List String).get ⟨i, hi⟩) =
          some ((GetWeather false ((["Lisbon", "London"] : List String).get ⟨i, hi⟩)).1)) ∧
     (mapKeys (GetMultiCityWeather (fun i => if i = 1 then allFired else noFire)
        ["Lisbon", "London"] [0, 1]).1).Nodup ∧
     (mapKeys (GetMultiCityWeather (fun i => if i = 1 then allFired else noFire)
        ["Lisbon", "London"] [0, 1]).1).length =
       (["Lisbon", "London"] : List String).length) :=
  ⟨by decide, by decide, by decide, by decide,
   single_unit_failure_isolated (fun i => if i = 1 then allFired else noFire)
     ["Lisbon", "London"] (by decide) [0, 1] (by decide) 1 (by decide)
     (by decide) (by decide)⟩

/-- C5: a key whose lookup reports `found = false` is still present in
the sequential batch's ResultMap, mapped to the caller-visible
could-not-be-found message, the returned error is `nil` (success), and in
the concrete scenario `["Lisbon", "Nowhere", "London"]` the map has
exactly the three entries with Lisbon's and London's genuine reports. -/
theorem notfound_key_still_present
    (cities : List String) (c : String) (hc : c ∈ cities)
    (hnf : (GetWeather false c).2 = false) :
    mapFind (GetWeatherForCities false cities).1 c =
      some ("Weather data for " ++ c ++ " could not be found.") ∧
    (GetWeatherForCities false cities).2 = none ∧
    GetWeatherForCities false ["Lisbon", "Nowhere", "London"] =
      ([("Lisbon", "The weather in Lisbon is currently sunny with 28°C."),
        ("Nowhere", "Weather data for Nowhere could not be found."),
        ("London", "The weather in London is currently cloudy with 18°C.")],
       none) := by
  refine ⟨?_, rfl, by decide⟩
  rw [gwfc_find false cities c, if_pos hc]
  simp [seqVal, hnf]

/-- C5 witness: the concrete scenario itself, with `"Nowhere"` as the
not-found key. -/
theorem notfound_key_still_present_witness :
    ("Nowhere" ∈ ["Lisbon", "Nowhere", "London"]) ∧
    ((GetWeather false "Nowhere").2 = false) ∧
    (mapFind (GetWeatherForCities false ["Lisbon", "Nowhere", "London"]).1 "Nowhere" =
       some ("Weather data for " ++ "Nowhere" ++ " could not be found.") ∧
     (GetWeatherForCities false ["Lisbon", "Nowhere", "London"]).2 = none ∧
     GetWeatherForCities false ["Lisbon", "Nowhere", "London"] =
       ([("Lisbon", "The weather in Lisbon is currently sunny with 28°C."),
         ("Nowhere", "Weather data for Nowhere could not be found."),
         ("London", "The weather in London is currently cloudy with 18°C.")],
        none)) :=
  ⟨by decide, by decide,
   notfound_key_still_present ["Lisbon", "Nowhere", "London"] "Nowhere"
     (by decide) (by decide)⟩

/-- C7: under a token that never fires, the batch result is
order-independent: any two merge orders the scheduler may produce
(permutations of the unit indices) yield map-equal results — the same
value at every key — so two invocations with the same deterministic
inputs agree; each key maps to its own unit's result. -/
theorem batch_result_order_independent
    (cities : List String) (order₁ order₂ : List Nat)
    (h₁ : order₁.Perm (List.range cities.length))
    (h₂ : order₂.Perm (List.range cities.length)) :
    ∀ k, mapFind (GetMultiCityWeather (fun _ => noFire) cities order₁).1 k =
      mapFind (GetMultiCityWeather (fun _ => noFire) cities order₂).1 k := by
  intro k
  rw [gmw_find_const noFire cities order₁ h₁ k,
    gmw_find_const noFire cities order₂ h₂ k]

/-- C7 witness: the batch `["Lisbon", "Lisbon", "London"]` (with a
duplicate key) under the two opposite merge orders. -/
theorem batch_result_order_independent_witness :
    (([0, 1, 2] : List Nat).Perm (List.range 3)) ∧
    (([2, 1, 0] : List Nat).Perm (List.range 3)) ∧
    (∀ k, mapFind (GetMultiCityWeather (fun _ => noFire)
        ["Lisbon", "Lisbon", "London"] [0, 1, 2]).1 k =
      mapFind (GetMultiCityWeather (fun _ => noFire)
        ["Lisbon", "Lisbon", "London"] [2, 1, 0]).1 k) :=
  ⟨by decide, by decide,
   batch_result_order_independent ["Lisbon", "Lisbon", "London"]
     [0, 1, 2] [2, 1, 0] (by decide) (by decide)⟩

/-- C8 counterexample: the single-key path and the one-element batch do
not have identical cancellation semantics.  Under a fired token,
`ProcessQuery`'s weather branch discards `GetData`'s error with `_` and
answers with the empty string, while the one-element batch substitutes
the could-not-be-found placeholder for the same key. -/
theorem single_vs_batch_cancel_counterexample :
    (ProcessQuery "now" allFired "weather in london").1 = "" ∧
    mapFind (GetMultiCityWeather (fun _ => allFired) ["London"] [0]).1 "London" =
      some ("Weather data for London could not be found.") ∧
    some (ProcessQuery "now" allFired "weather in london").1 ≠
      mapFind (GetMultiCityWeather (fun _ => allFired) ["London"] [0]).1 "London" := by
  decide

/-- C8 (amended): both paths route through the same `GetData`/`GetWeather`
code, and as long as the token does not fire they agree: for every query
taken by the weather branch with a non-empty extracted city, the
single-key answer equals the one-element batch's sole map entry, and both
return status 200.  Under cancellation the two paths diverge (see the
counterexample): the single-key path returns the empty string because it
discards the error, while the batch substitutes the placeholder. -/
theorem single_key_path_matches_batch
    (now query : String)
    (ht : contains query "time" = false) (hd : contains query "date" = false)
    (hw : contains query "weather" = true) (hc : extractCity query ≠ "") :
    (ProcessQuery now noFire query).2 = 200 ∧
    (GetMultiCityWeather (fun _ => noFire) [extractCity query] [0]).2 = 200 ∧
    mapFind (GetMultiCityWeather (fun _ => noFire) [extractCity query] [0]).1
        (extractCity query) =
      some ((ProcessQuery now noFire query).1) := by
  refine ⟨rfl, rfl, ?_⟩
  have hnoerr : (unitResult noFire (extractCity query)).2 =
      (GetData noFire (extractCity query) GetWeather).1 := by
    unfold unitResult GetData noFire
    by_cases hx : (GetWeather false (extractCity query)).2 <;> simp [hx]
  have hans : (ProcessQuery now noFire query).1 =
      (GetData noFire (extractCity query) GetWeather).1 := by
    unfold ProcessQuery
    rw [ht, hd, hw]
    simp [hc]
  have hperm : ([0] : List Nat).Perm
      (List.range ([extractCity query] : List String).length) :=
    List.Perm.refl _
  have h0 : (0 : Nat) < ([extractCity query] : List String).length := Nat.one_pos
  have hchar := gmw_find_nodup (fun _ => noFire) [extractCity query] [0]
    (List.nodup_singleton _) hperm 0 h0
  rw [show ([extractCity query] : List String).get ⟨0, h0⟩ = extractCity query
    from rfl] at hchar
  rw [hchar, hnoerr, hans]

/-- C8 witness: the query `"weather in lisbon"` under a token that never
fires. -/
theorem single_key_path_matches_batch_witness :
    (contains "weather in lisbon" "time" = false) ∧
    (contains "weather in lisbon" "date" = false) ∧
    (contains "weather in lisbon" "weather" = true) ∧
    (extractCity "weather in lisbon" ≠ "") ∧
    ((ProcessQuery "now" noFire "weather in lisbon").2 = 200 ∧
     (GetMultiCityWeather (fun _ => noFire) [extractCity "weather in lisbon"] [0]).2 = 200 ∧
     mapFind (GetMultiCityWeather (fun _ => noFire)
         [extractCity "weather in lisbon"] [0]).1 (extractCity "weather in lisbon") =
       some ((ProcessQuery "now" noFire "weather in lisbon").1)) :=
  ⟨by decide, by decide, by decide, by decide,
   single_key_path_matches_batch "now" "weather in lisbon"
     (by decide) (by decide) (by decide) (by decide)⟩

/-- C9: `GetWeatherForCities` returns a `nil` error for every context
state and every city list, so the 500-error branch of its caller
`GetWeatherForCitiesFromQuery` is unreachable: the caller always returns
a present map with status 200. -/
theorem sequential_error_branch_unreachable
    (cancelled : Bool) (query : String) (cities : List String) :
    (GetWeatherForCities cancelled cities).2 = none ∧
    (GetWeatherForCitiesFromQuery cancelled query).2 = 200 ∧
    ((GetWeatherForCitiesFromQuery cancelled query).1).isSome = true :=
  ⟨rfl, rfl, rfl⟩

/-- C10: key matching is case-insensitive while result keys preserve the
caller's spelling: `GetWeather`'s found flag depends only on the
lowercased city (so `"LONDON"` and `"london"` are both found), the
ResultMaps built by both batch operations — the concurrent
`GetMultiCityWeather` and the sequential `GetWeatherForCities` — are
keyed by the caller's verbatim city strings, and a found city's casing
appears verbatim in its report text. -/
theorem lookup_case_insensitive_keys_verbatim
    (c₁ c₂ : String) (h : strToLower c₁ = strToLower c₂)
    (obs : Nat → TokenObs) (cities : List String) (order : List Nat)
    (hperm : order.Perm (List.range cities.length)) :
    (GetWeather false c₁).2 = (GetWeather false c₂).2 ∧
    ((GetWeather false "LONDON").2 = true ∧ (GetWeather false "london").2 = true) ∧
    (∀ k, k ∈ mapKeys (GetMultiCityWeather obs cities order).1 ↔ k ∈ cities) ∧
    (∀ cancelled k, k ∈ mapKeys (GetWeatherForCities cancelled cities).1 ↔
       k ∈ cities) ∧
    (∀ c r, mapFind weatherData (strToLower c) = some r →
       (GetWeather false c).1 = "The weather in " ++ c ++ " is currently " ++ r) := by
  have hflag : ∀ c : String,
      (GetWeather false c).2 = (mapFind weatherData (strToLower c)).isSome := by
    intro c
    unfold GetWeather
    cases hx : mapFind weatherData (strToLower c) <;> simp [hx]
  refine ⟨?_, ⟨by decide, by decide⟩,
    fun k => gmw_mem_keys obs cities order hperm k,
    fun cancelled k => gwfc_mem_keys cancelled cities k, ?_⟩
  · rw [hflag c₁, hflag c₂, h]
  · intro c r hr
    unfold GetWeather
    simp [hr]

/-- C10 witness: `"LONDON"` and `"london"` share a lowercase form, and
both batch operations keep the caller's spelling `"LoNdOn"` as the key. -/
theorem lookup_case_insensitive_keys_verbatim_witness :
    (strToLower "LONDON" = strToLower "london") ∧
    (([0] : List Nat).Perm (List.range 1)) ∧
    ((GetWeather false "LONDON").2 = (GetWeather false "london").2 ∧
     ((GetWeather false "LONDON").2 = true ∧ (GetWeather false "london").2 = true) ∧
     (∀ k, k ∈ mapKeys (GetMultiCityWeather (fun _ => noFire) ["LoNdOn"] [0]).1 ↔
       k ∈ ["LoNdOn"]) ∧
     (∀ cancelled k, k ∈ mapKeys (GetWeatherForCities cancelled ["LoNdOn"]).1 ↔
       k ∈ ["LoNdOn"]) ∧
     (∀ c r, mapFind weatherData (strToLower c) = some r →
        (GetWeather false c).1 = "The weather in " ++ c ++ " is currently " ++ r)) :=
  ⟨by decide, by decide,
   lookup_case_insensitive_keys_verbatim "LONDON" "london" (by decide)
     (fun _ => noFire) ["LoNdOn"] [0] (by decide)⟩

end Gonuxt
